import Mathlib

/-!
Shallow embedding of the TradeBuddy core (broker-confirmation parser and
risk/assessment engine) and proofs checking the natural-language
specification against it.

JavaScript numbers are modelled as `JsNum`: either a finite rational, one of
the two infinities, or NaN.  Finite arithmetic is idealized as exact rational
arithmetic.  Comparisons follow IEEE semantics (every comparison with NaN is
false).
-/

/-- Model of a JavaScript `number`: finite rational, `Infinity`, `-Infinity`
or `NaN`. -/
inductive JsNum where
  | fin (q : ℚ)
  | inf
  | ninf
  | nan
  deriving DecidableEq, Repr

namespace JsNum

/-- JavaScript `isFinite`. -/
def isFinite : JsNum → Bool
  | fin _ => true
  | _ => false

/-- JavaScript `<` on numbers (false whenever an operand is NaN). -/
def lt : JsNum → JsNum → Bool
  | fin a, fin b => a < b
  | fin _, inf => true
  | ninf, fin _ => true
  | ninf, inf => true
  | _, _ => false

/-- JavaScript `<=` on numbers (false whenever an operand is NaN). -/
def le : JsNum → JsNum → Bool
  | fin a, fin b => a ≤ b
  | fin _, inf => true
  | ninf, fin _ => true
  | ninf, inf => true
  | inf, inf => true
  | ninf, ninf => true
  | _, _ => false

/-- JavaScript `>`. -/
def gt (a b : JsNum) : Bool := lt b a

/-- JavaScript `>=`. -/
def ge (a b : JsNum) : Bool := le b a

end JsNum

/-- `LegType` from `types.ts`. -/
inductive LegType where
  | call
  | put
  | stock
  deriving DecidableEq, Repr

/-- `LegSide` from `types.ts`. -/
inductive LegSide where
  | buy
  | sell
  deriving DecidableEq, Repr

/-- `Leg` from `types.ts` (finite numeric fields idealized as rationals). -/
structure Leg where
  type : LegType
  side : LegSide
  strike : Option ℚ := none
  expiry : Option String := none
  price : Option ℚ := none
  quantity : ℚ := 1
  deriving DecidableEq, Repr

/-- Multiplier used in `risk.ts`: `leg.type === 'stock' ? 1 : 100`. -/
def legMultiplier (leg : Leg) : ℚ :=
  if leg.type = LegType.stock then 1 else 100

/-- The vertical-spread guard from `risk.ts`: same type, non-stock, both
strikes defined, opposite sides. -/
def isVerticalPair (leg1 leg2 : Leg) : Bool :=
  leg1.type = leg2.type && leg1.type ≠ LegType.stock &&
    leg1.strike ≠ none && leg2.strike ≠ none && leg1.side ≠ leg2.side

/-- Fall-through tail of `calculateMaxRisk` for shapes that are neither a
single leg nor a recognized vertical spread. -/
def fallbackMaxRisk (entryPrice quantity : ℚ) : JsNum :=
  if entryPrice > 0 then JsNum.fin (entryPrice * quantity * 100) else JsNum.fin 0

/-- `calculateMaxRisk` from `risk.ts`. -/
def calculateMaxRisk (legs : List Leg) (entryPrice quantity : ℚ) : JsNum :=
  if legs.length = 0 ∨ quantity = 0 then JsNum.fin 0
  else
    match legs with
    | [leg] =>
        if leg.side = LegSide.buy then
          JsNum.fin (|entryPrice| * quantity * legMultiplier leg)
        else
          JsNum.inf
    | [leg1, leg2] =>
        if isVerticalPair leg1 leg2 then
          let strikeDiff := |leg1.strike.getD 0 - leg2.strike.getD 0|
          let maxLossPerContract := strikeDiff * 100
          if entryPrice < 0 then
            JsNum.fin ((maxLossPerContract - |entryPrice| * 100) * quantity)
          else
            JsNum.fin (|entryPrice| * quantity * 100)
        else fallbackMaxRisk entryPrice quantity
    | _ => fallbackMaxRisk entryPrice quantity

/-- Fall-through tail of `calculateMaxReward`. -/
def fallbackMaxReward (entryPrice quantity : ℚ) : JsNum :=
  if entryPrice < 0 then JsNum.fin (|entryPrice| * quantity * 100) else JsNum.fin 0

/-- `calculateMaxReward` from `risk.ts`. -/
def calculateMaxReward (legs : List Leg) (entryPrice quantity : ℚ) : JsNum :=
  if legs.length = 0 ∨ quantity = 0 then JsNum.fin 0
  else
    match legs with
    | [leg] =>
        if leg.side = LegSide.sell then
          JsNum.fin (|entryPrice| * quantity * legMultiplier leg)
        else
          JsNum.inf
    | [leg1, leg2] =>
        if isVerticalPair leg1 leg2 then
          let strikeDiff := |leg1.strike.getD 0 - leg2.strike.getD 0|
          let maxGainPerContract := strikeDiff * 100
          if entryPrice < 0 then
            JsNum.fin (|entryPrice| * quantity * 100)
          else
            JsNum.fin ((maxGainPerContract - |entryPrice| * 100) * quantity)
        else fallbackMaxReward entryPrice quantity
    | _ => fallbackMaxReward entryPrice quantity

/-- `calculateRiskReward` from `risk.ts`. -/
def calculateRiskReward (maxRisk maxReward : JsNum) : JsNum :=
  if maxRisk = JsNum.fin 0 ∨ ¬maxRisk.isFinite ∨ ¬maxReward.isFinite then
    JsNum.fin 0
  else
    match maxRisk, maxReward with
    | JsNum.fin r, JsNum.fin w => JsNum.fin (w / r)
    | _, _ => JsNum.fin 0

/-- `calculateBreakeven` from `risk.ts`. -/
def calculateBreakeven (legs : List Leg) (entryPrice : ℚ) : List ℚ :=
  match legs with
  | [] => []
  | [leg] =>
      if leg.type = LegType.stock then [entryPrice]
      else
        match leg.strike with
        | none => []
        | some strike =>
            let premium := |entryPrice|
            if leg.type = LegType.call then
              [strike + (if leg.side = LegSide.buy then premium else -premium)]
            else
              [strike - (if leg.side = LegSide.buy then premium else -premium)]
  | [leg1, leg2] =>
      if isVerticalPair leg1 leg2 then
        let longLeg := if leg1.side = LegSide.buy then leg1 else leg2
        let shortLeg := if leg1.side = LegSide.sell then leg1 else leg2
        let netPremium := |entryPrice|
        if leg1.type = LegType.call then
          if entryPrice > 0 then [longLeg.strike.getD 0 + netPremium]
          else [shortLeg.strike.getD 0 + netPremium]
        else
          if entryPrice > 0 then [longLeg.strike.getD 0 - netPremium]
          else [shortLeg.strike.getD 0 - netPremium]
      else []
  | _ => []

/-- `Metrics` from `types.ts`; every numeric field is optional
(`number | undefined`). -/
structure Metrics where
  maxRisk : Option JsNum := none
  maxReward : Option JsNum := none
  rr : Option JsNum := none
  breakeven : Option (List ℚ) := none
  popEst : Option JsNum := none
  delta : Option JsNum := none
  iv : Option JsNum := none
  deriving DecidableEq, Repr

/-- Risk level from `assessment.ts`. -/
inductive RiskLevel where
  | low
  | medium
  | high
  | unknown
  deriving DecidableEq, Repr

/-- The `factors` sub-record of an assessment. -/
structure AssessmentFactors where
  rr : Option JsNum := none
  popEst : Option JsNum := none
  maxRisk : Option JsNum := none
  maxReward : Option JsNum := none
  deriving DecidableEq, Repr

/-- `AssessmentResult` from `assessment.ts`. -/
structure AssessmentResult where
  text : String
  factors : AssessmentFactors
  riskLevel : RiskLevel
  deriving DecidableEq, Repr

/-- Rule-1 message. -/
def insufficientDataText : String :=
  "Insufficient data for assessment. Please review trade parameters."

/-- Rule-2 message. -/
def unableToCalculateText : String :=
  "Unable to calculate risk/reward ratio. Review trade structure."

/-- Rule-3 message. -/
def riskHeavyText : String :=
  "Risk-heavy trade with high potential reward but lower probability of success. Consider sizing down or adjusting position."

/-- Rule-4 message. -/
def balancedText : String :=
  "Balanced trade with moderate risk/reward and probability. Monitor breakeven distance and manage position size appropriately."

/-- Rule-5 message. -/
def favorableText : String :=
  "Favorable risk/reward profile with high probability of success. Low risk relative to potential reward."

/-- Rule-6 message. -/
def highProbabilityText : String :=
  "High probability trade. While success is more likely, ensure reward justifies the position size and capital commitment."

/-- Rule-7 message. -/
def lowProbabilityText : String :=
  "Low probability trade. Consider if the potential reward justifies the risk, and size accordingly."

/-- Rule-8 message. -/
def excellentRRText : String :=
  "Excellent risk/reward ratio. Potential reward significantly exceeds risk. Ensure probability supports the trade thesis."

/-- Rule-9 message. -/
def limitedRewardText : String :=
  "Limited reward relative to risk. Evaluate if this trade aligns with your strategy and risk tolerance."

/-- Rule-10 (default) message. -/
def normalRangesText : String :=
  "Trade parameters are within normal ranges. Review all metrics and ensure alignment with your trading plan."

/-- Capital-limit warning clause. -/
def maxRiskWarningText : String :=
  "Note: Maximum risk exceeds $5,000. Ensure this fits your risk management rules."

/-- POP-unavailable warning clause. -/
def popUnavailableWarningText : String :=
  "POP estimate unavailable - limited market data. Use caution when evaluating probability."

/-- `generateAssessment` from `assessment.ts`, translated clause for clause:
the early returns for missing data and non-finite `rr`, the chain of
`if`/`else if` threshold rules on `rr ?? 0` and `popEst ?? 0`, and the two
appended warnings (`maxRisk > 5000`, `popEst === undefined`). -/
def generateAssessment (metrics : Metrics) : AssessmentResult :=
  let factors : AssessmentFactors :=
    { rr := metrics.rr, popEst := metrics.popEst,
      maxRisk := metrics.maxRisk, maxReward := metrics.maxReward }
  if metrics.rr = none ∧ metrics.popEst = none then
    { text := insufficientDataText, factors := factors, riskLevel := RiskLevel.unknown }
  else if (match metrics.rr with
           | some r => !r.isFinite
           | none => false) then
    { text := unableToCalculateText, factors := factors, riskLevel := RiskLevel.unknown }
  else
    let rrValue := metrics.rr.getD (JsNum.fin 0)
    let popValue := metrics.popEst.getD (JsNum.fin 0)
    let main : String × RiskLevel :=
      if rrValue.ge (JsNum.fin (3/2)) && popValue.lt (JsNum.fin (9/20)) then
        (riskHeavyText, RiskLevel.high)
      else if rrValue.ge (JsNum.fin (7/10)) && rrValue.lt (JsNum.fin (3/2)) &&
          popValue.ge (JsNum.fin (9/20)) && popValue.le (JsNum.fin (3/5)) then
        (balancedText, RiskLevel.medium)
      else if rrValue.lt (JsNum.fin (7/10)) && popValue.gt (JsNum.fin (3/5)) then
        (favorableText, RiskLevel.low)
      else if popValue.gt (JsNum.fin (7/10)) then
        (highProbabilityText, RiskLevel.low)
      else if popValue.lt (JsNum.fin (7/20)) then
        (lowProbabilityText, RiskLevel.high)
      else if rrValue.ge (JsNum.fin 2) then
        (excellentRRText, RiskLevel.medium)
      else if rrValue.lt (JsNum.fin (1/2)) then
        (limitedRewardText, RiskLevel.high)
      else
        (normalRangesText, RiskLevel.medium)
    let warnings : List String :=
      (if (match metrics.maxRisk with
           | some m => m.gt (JsNum.fin 5000)
           | none => false) then [maxRiskWarningText] else []) ++
      (if metrics.popEst = none then [popUnavailableWarningText] else [])
    let text :=
      if warnings.length > 0 then main.1 ++ " " ++ String.intercalate " " warnings
      else main.1
    { text := text, factors := factors, riskLevel := main.2 }

/-!
A second definition written from the words of the specification (§4.2 of
`spec.md`): "a fixed, ordered decision table over
`(riskReward, probabilityOfProfit)`, evaluated top-to-bottom, first match
wins", with rules 3-10 as stated there, absence treated as `0` in rules 3-9,
and the two independent warning clauses appended afterwards.
-/

/-- The spec's threshold rules 3-9 as an ordered table of
(condition, message, risk level), written with the inequality orientation of
the spec text (`0.7 <= rr < 1.5`, `0.45 <= pop <= 0.6`, ...). -/
def specRuleTable (rr pop : JsNum) : List (Bool × String × RiskLevel) :=
  [ (rr.ge (JsNum.fin (3/2)) && pop.lt (JsNum.fin (9/20)),
      riskHeavyText, RiskLevel.high),
    ((JsNum.fin (7/10)).le rr && rr.lt (JsNum.fin (3/2)) &&
        (JsNum.fin (9/20)).le pop && pop.le (JsNum.fin (3/5)),
      balancedText, RiskLevel.medium),
    (rr.lt (JsNum.fin (7/10)) && pop.gt (JsNum.fin (3/5)),
      favorableText, RiskLevel.low),
    (pop.gt (JsNum.fin (7/10)), highProbabilityText, RiskLevel.low),
    (pop.lt (JsNum.fin (7/20)), lowProbabilityText, RiskLevel.high),
    (rr.ge (JsNum.fin 2), excellentRRText, RiskLevel.medium),
    (rr.lt (JsNum.fin (1/2)), limitedRewardText, RiskLevel.high) ]

/-- Top-to-bottom, first-match-wins evaluation of a rule table; rule 10 of
the spec (the generic default) applies when nothing matched. -/
def firstMatch : List (Bool × String × RiskLevel) → String × RiskLevel
  | [] => (normalRangesText, RiskLevel.medium)
  | (cond, msg, lvl) :: rest => if cond then (msg, lvl) else firstMatch rest

/-- Assessment as described by the specification: rules 1 and 2 treat
absence/non-finiteness specially, rules 3-10 run top-to-bottom on
`rr`/`pop` with absence read as `0`, and then each of the two warning
clauses is appended exactly when its own condition holds, independently of
the matched rule and of the other warning. -/
def specAssessment (metrics : Metrics) : AssessmentResult :=
  let factors : AssessmentFactors :=
    { rr := metrics.rr, popEst := metrics.popEst,
      maxRisk := metrics.maxRisk, maxReward := metrics.maxReward }
  if metrics.rr = none ∧ metrics.popEst = none then
    { text := insufficientDataText, factors := factors, riskLevel := RiskLevel.unknown }
  else if (metrics.rr.map (fun r => !r.isFinite)).getD false then
    { text := unableToCalculateText, factors := factors, riskLevel := RiskLevel.unknown }
  else
    let rr := metrics.rr.getD (JsNum.fin 0)
    let pop := metrics.popEst.getD (JsNum.fin 0)
    let main := firstMatch (specRuleTable rr pop)
    let capitalWarning : Bool :=
      match metrics.maxRisk with
      | some m => m.gt (JsNum.fin 5000)
      | none => false
    let text1 := if capitalWarning then main.1 ++ " " ++ maxRiskWarningText else main.1
    let text2 := if metrics.popEst = none then text1 ++ " " ++ popUnavailableWarningText else text1
    { text := text2, factors := factors, riskLevel := main.2 }

/-!
## The confirmation parser

`parser.ts` is regex-driven.  Regexes are embedded as an explicit syntax tree
(`RE`) and executed by a backtracking matcher that mirrors JavaScript regex
semantics: the leftmost match position wins, alternatives are tried in
syntactic order, and quantifiers are greedy.  Character classes are spelled
out as explicit character lists.  `runs` returns every way the pattern can
match at the current position, in JavaScript preference order; the overall
match of a search is the head of the first non-empty list.  The `fuel`
argument only forces termination: every quantifier iteration must consume at
least one character, and searches start with more fuel than the remaining
input length, so fuel never runs out on a path a JavaScript engine would
explore.
-/

/-- The characters of `\d`. -/
def digitChars : List Char :=
  ['0', '1', '2', '3', '4', '5', '6', '7', '8', '9']

/-- The characters of `[A-Z]`. -/
def upperChars : List Char :=
  ['A', 'B', 'C', 'D', 'E', 'F', 'G', 'H', 'I', 'J', 'K', 'L', 'M',
   'N', 'O', 'P', 'Q', 'R', 'S', 'T', 'U', 'V', 'W', 'X', 'Y', 'Z']

/-- The characters of `[a-z]`. -/
def lowerChars : List Char :=
  ['a', 'b', 'c', 'd', 'e', 'f', 'g', 'h', 'i', 'j', 'k', 'l', 'm',
   'n', 'o', 'p', 'q', 'r', 's', 't', 'u', 'v', 'w', 'x', 'y', 'z']

/-- Whitespace recognized by `\s` and `String.prototype.trim` (ASCII
whitespace plus no-break space, the only whitespace these inputs see). -/
def jsSpaceChars : List Char :=
  [' ', '\t', '\n', '\r', '\x0B', '\x0C', '\u00A0']

/-- The characters of `\w`, used by the `\b` assertion. -/
def wordChars : List Char :=
  upperChars ++ lowerChars ++ digitChars ++ ['_']

/-- Line terminators excluded by `.`. -/
def lineTermChars : List Char :=
  ['\n', '\r', '\u2028', '\u2029']

/-- Regex syntax: literal text (with a case-insensitivity flag), character
sets and negated sets, sequencing, prioritized alternation, bounded greedy
repetition, capturing groups and the `\b` word-boundary assertion. -/
inductive RE where
  | eps
  | lit (s : String) (ci : Bool)
  | set (cs : List Char)
  | nset (cs : List Char)
  | seq (a b : RE)
  | alt (a b : RE)
  | rep (lo : Nat) (hi : Option Nat) (r : RE)
  | grp (i : Nat) (r : RE)
  | wb
  deriving Repr

/-- Sequence a list of regexes. -/
def RE.cat : List RE → RE
  | [] => RE.eps
  | [r] => r
  | r :: rs => RE.seq r (RE.cat rs)

/-- Alternation over a list, first alternative preferred. -/
def RE.alts : List RE → RE
  | [] => RE.set []
  | [r] => r
  | r :: rs => RE.alt r (RE.alts rs)

/-- `r?` -/
def RE.opt (r : RE) : RE := RE.rep 0 (some 1) r

/-- `r*` -/
def RE.star (r : RE) : RE := RE.rep 0 none r

/-- `r+` -/
def RE.plus (r : RE) : RE := RE.rep 1 none r

/-- Captured groups, most recent first. -/
abbrev Caps := List (Nat × String)

/-- Match a literal, consuming characters; tracks the new previous
character for `\b`. -/
def matchLit (ci : Bool) : List Char → List Char → Option Char →
    Option (List Char × Option Char)
  | [], s, p => some (s, p)
  | pc :: pr, c :: sr, _ =>
      if (if ci then pc.toLower == c.toLower else pc == c) then
        matchLit ci pr sr (some c)
      else none
  | _ :: _, [], _ => none

/-- Size of a regex, used to budget matcher fuel. -/
def RE.size : RE → Nat
  | RE.eps => 1
  | RE.lit _ _ => 1
  | RE.set _ => 1
  | RE.nset _ => 1
  | RE.wb => 1
  | RE.seq a b => a.size + b.size + 1
  | RE.alt a b => a.size + b.size + 1
  | RE.rep _ _ r => r.size + 1
  | RE.grp _ r => r.size + 1

/-- All ways `re` can match a prefix of `s`, in JavaScript preference order
(greedy, leftmost alternative first).  Each result is the remaining input,
the new previous character, and the captures made so far.  Recursion is on
`fuel`, decremented at every call; searches start with
`(re.size + 1) * (length + 2)` fuel, which exceeds the depth of any call
chain (every quantifier iteration must consume at least one character, and a
chain descends a regex of bounded size between consumptions), so the
fuel-exhausted branch is never taken. -/
def RE.runs (fuel : Nat) (re : RE) (s : List Char) (p : Option Char)
    (caps : Caps) : List (List Char × Option Char × Caps) :=
  match fuel with
  | 0 => []
  | fuel + 1 =>
    match re with
    | RE.eps => [(s, p, caps)]
    | RE.lit pat ci =>
        match matchLit ci pat.data s p with
        | some (s', p') => [(s', p', caps)]
        | none => []
    | RE.set cs =>
        match s with
        | [] => []
        | c :: rest => if cs.contains c then [(rest, some c, caps)] else []
    | RE.nset cs =>
        match s with
        | [] => []
        | c :: rest => if cs.contains c then [] else [(rest, some c, caps)]
    | RE.wb =>
        let prevW := match p with
          | some c => wordChars.contains c
          | none => false
        let nextW := match s with
          | c :: _ => wordChars.contains c
          | [] => false
        if prevW != nextW then [(s, p, caps)] else []
    | RE.seq a b =>
        (RE.runs fuel a s p caps).flatMap fun x => RE.runs fuel b x.1 x.2.1 x.2.2
    | RE.alt a b => RE.runs fuel a s p caps ++ RE.runs fuel b s p caps
    | RE.grp i r =>
        (RE.runs fuel r s p caps).map fun x =>
          (x.1, x.2.1, (i, String.mk (s.take (s.length - x.1.length))) :: x.2.2)
    | RE.rep lo hi r =>
        match hi with
        | some 0 => [(s, p, caps)]
        | _ =>
          let more := (RE.runs fuel r s p caps).flatMap fun x =>
            if x.1.length < s.length then
              RE.runs fuel (RE.rep (lo - 1) (hi.map fun h => h - 1) r) x.1 x.2.1 x.2.2
            else if lo ≤ 1 then [x] else []
          if lo = 0 then more ++ [(s, p, caps)] else more

/-- One match attempt at the current position: the preferred (first) way the
pattern matches here, if any. -/
def reStep (re : RE) (s : List Char) (p : Option Char) : Option (String × Caps) :=
  match RE.runs ((re.size + 1) * (s.length + 2)) re s p [] with
  | x :: _ => some (String.mk (s.take (s.length - x.1.length)), x.2.2)
  | [] => none

/-- Search for the leftmost match, like `String.prototype.match` without the
`g` flag: returns the whole matched text and the captures. -/
def reSearchFrom (re : RE) : List Char → Option Char → Option (String × Caps)
  | [], p => reStep re [] p
  | c :: rest, p =>
    match reStep re (c :: rest) p with
    | some r => some r
    | none => reSearchFrom re rest (some c)

/-- `s.match(re)`, reduced to the matched text and captures. -/
def reSearch (re : RE) (s : String) : Option (String × Caps) :=
  reSearchFrom re s.data none

/-- `re.test(s)`. -/
def reTest (re : RE) (s : String) : Bool :=
  (reSearch re s).isSome

/-- `s.match(re)?.[i]` for a capture group `i`. -/
def reGroup (re : RE) (s : String) (i : Nat) : Option String :=
  match reSearch re s with
  | some (_, caps) => caps.lookup i
  | none => none

/-!
The regexes of `parser.ts`, transcribed literal-for-literal.
-/

/-- Month alternatives `(Jan|Feb|...|Dec)`, case-insensitive under `/i`. -/
def monthNames : List String :=
  ["Jan", "Feb", "Mar", "Apr", "May", "Jun",
   "Jul", "Aug", "Sep", "Oct", "Nov", "Dec"]

/-- `/(Jan|...|Dec)[ -]?(\d{1,2})[ -]?(\d{4}|\d{2})/i` from `parseDateLike`. -/
def dateLikeRe : RE :=
  RE.cat [RE.grp 1 (RE.alts (monthNames.map fun m => RE.lit m true)),
          RE.opt (RE.set [' ', '-']),
          RE.grp 2 (RE.rep 1 (some 2) (RE.set digitChars)),
          RE.opt (RE.set [' ', '-']),
          RE.grp 3 (RE.alt (RE.rep 4 (some 4) (RE.set digitChars))
                           (RE.rep 2 (some 2) (RE.set digitChars)))]

/-- `/[+-]?([A-Z]{1,6})(\d{2})(\d{2})(\d{2})([CP])(\d{2,4})/` from
`parseSymbolCode`. -/
def symbolCodeRe : RE :=
  RE.cat [RE.opt (RE.set ['+', '-']),
          RE.grp 1 (RE.rep 1 (some 6) (RE.set upperChars)),
          RE.grp 2 (RE.rep 2 (some 2) (RE.set digitChars)),
          RE.grp 3 (RE.rep 2 (some 2) (RE.set digitChars)),
          RE.grp 4 (RE.rep 2 (some 2) (RE.set digitChars)),
          RE.grp 5 (RE.set ['C', 'P']),
          RE.grp 6 (RE.rep 2 (some 4) (RE.set digitChars))]

/-- `/\(([A-Z]{1,6})\)/` from `parseDescriptionLine`. -/
def parenTickerRe : RE :=
  RE.cat [RE.lit "(" false,
          RE.grp 1 (RE.rep 1 (some 6) (RE.set upperChars)),
          RE.lit ")" false]

/-- `/\b(PUT|CALL)\b/i` from `parseDescriptionLine`. -/
def putCallRe : RE :=
  RE.cat [RE.wb, RE.grp 1 (RE.alt (RE.lit "PUT" true) (RE.lit "CALL" true)), RE.wb]

/-- `/(JAN|...|DEC)\s+(\d{1,2})\s+(\d{2,4})\b/i` from `parseDescriptionLine`. -/
def descExpiryRe : RE :=
  RE.cat [RE.grp 1 (RE.alts (monthNames.map fun m => RE.lit m true)),
          RE.plus (RE.set jsSpaceChars),
          RE.grp 2 (RE.rep 1 (some 2) (RE.set digitChars)),
          RE.plus (RE.set jsSpaceChars),
          RE.grp 3 (RE.rep 2 (some 4) (RE.set digitChars)),
          RE.wb]

/-- `/\$(\d+(?:\.\d{1,2})?)/` from `parseDescriptionLine`. -/
def dollarStrikeRe : RE :=
  RE.cat [RE.lit "$" false,
          RE.grp 1 (RE.cat [RE.plus (RE.set digitChars),
                            RE.opt (RE.cat [RE.lit "." false,
                                            RE.rep 1 (some 2) (RE.set digitChars)])])]

/-- `/\((\d+)\s*SHS\)/i` from `parseDescriptionLine`. -/
def shsRe : RE :=
  RE.cat [RE.lit "(" false,
          RE.grp 1 (RE.plus (RE.set digitChars)),
          RE.star (RE.set jsSpaceChars),
          RE.lit "SHS" true,
          RE.lit ")" false]

/-- `/\(Margin\)/i`. -/
def parenMarginRe : RE := RE.lit "(Margin)" true

/-- `/YOU\s+(BOUGHT|SOLD)\s+(OPENING|CLOSING)\s+TRANSACTION/i` from
`parseActionOpenClose`. -/
def actionRe : RE :=
  RE.cat [RE.lit "YOU" true, RE.plus (RE.set jsSpaceChars),
          RE.grp 1 (RE.alt (RE.lit "BOUGHT" true) (RE.lit "SOLD" true)),
          RE.plus (RE.set jsSpaceChars),
          RE.grp 2 (RE.alt (RE.lit "OPENING" true) (RE.lit "CLOSING" true)),
          RE.plus (RE.set jsSpaceChars),
          RE.lit "TRANSACTION" true]

/-- `/Contracts\s*[\r\n]+([+-]?\d+(?:\.\d+)*)/i` from `parseContracts`. -/
def contractsRe : RE :=
  RE.cat [RE.lit "Contracts" true,
          RE.star (RE.set jsSpaceChars),
          RE.plus (RE.set ['\r', '\n']),
          RE.grp 1 (RE.cat [RE.opt (RE.set ['+', '-']),
                            RE.plus (RE.set digitChars),
                            RE.star (RE.cat [RE.lit "." false,
                                             RE.plus (RE.set digitChars)])])]

/-- `\d{1,3}(?:,\d{3})*(?:\.\d{2})?`, the money number of `parseAmount`. -/
def moneyNumRe : RE :=
  RE.cat [RE.rep 1 (some 3) (RE.set digitChars),
          RE.star (RE.cat [RE.lit "," false, RE.rep 3 (some 3) (RE.set digitChars)]),
          RE.opt (RE.cat [RE.lit "." false, RE.rep 2 (some 2) (RE.set digitChars)])]

/-- `/([+-])\$\s*(\d{1,3}(?:,\d{3})*(?:\.\d{2})?)/` from `parseAmount`. -/
def amountSignRe : RE :=
  RE.cat [RE.grp 1 (RE.set ['+', '-']),
          RE.lit "$" false,
          RE.star (RE.set jsSpaceChars),
          RE.grp 2 moneyNumRe]

/-- `/Amount[\r\n]+\$?\s*(\d{1,3}(?:,\d{3})*(?:\.\d{2})?)/i` from
`parseAmount`. -/
def amountLabelRe : RE :=
  RE.cat [RE.lit "Amount" true,
          RE.plus (RE.set ['\r', '\n']),
          RE.opt (RE.lit "$" false),
          RE.star (RE.set jsSpaceChars),
          RE.grp 1 moneyNumRe]

/-- `new RegExp(label + '[\r\n]+\$?\s*(\d+(?:,\d{3})*(?:\.\d{1,4})?)', 'i')`
from `parseNumberAfterLabel`; the labels used contain no metacharacters. -/
def labelNumRe (label : String) : RE :=
  RE.cat [RE.lit label true,
          RE.plus (RE.set ['\r', '\n']),
          RE.opt (RE.lit "$" false),
          RE.star (RE.set jsSpaceChars),
          RE.grp 1 (RE.cat [RE.plus (RE.set digitChars),
                            RE.star (RE.cat [RE.lit "," false,
                                             RE.rep 3 (some 3) (RE.set digitChars)]),
                            RE.opt (RE.cat [RE.lit "." false,
                                            RE.rep 1 (some 4) (RE.set digitChars)])])]

/-- `/Date[\r\n]+(.+)/i` from `parseTradeText`. -/
def dateLabelRe : RE :=
  RE.cat [RE.lit "Date" true,
          RE.plus (RE.set ['\r', '\n']),
          RE.grp 1 (RE.plus (RE.nset lineTermChars))]

/-- `/\bEXPIRED\b/i`. -/
def expiredRe : RE :=
  RE.cat [RE.wb, RE.lit "EXPIRED" true, RE.wb]

/-- `/[+-]?[A-Z]{1,6}\d{6}[CP]\d{2,4}/`, used to extract the raw symbol
token for the `symbol` field. -/
def symbolFieldRe : RE :=
  RE.cat [RE.opt (RE.set ['+', '-']),
          RE.rep 1 (some 6) (RE.set upperChars),
          RE.rep 6 (some 6) (RE.set digitChars),
          RE.set ['C', 'P'],
          RE.rep 2 (some 4) (RE.set digitChars)]

/-- `/\bType[\r\n]+Margin\b/i`. -/
def typeMarginRe : RE :=
  RE.cat [RE.wb, RE.lit "Type" true, RE.plus (RE.set ['\r', '\n']),
          RE.lit "Margin" true, RE.wb]

/-- `/\b\*\*\*\d{3,4}\b/`. -/
def accountRe : RE :=
  RE.cat [RE.wb, RE.lit "***" false, RE.rep 3 (some 4) (RE.set digitChars), RE.wb]

/-!
Number and date helpers of `parser.ts`, plus models of the JavaScript
builtins the parser calls.  `parseInt`/`parseFloat` are modelled on the
inputs the parser feeds them: capture-group text made of an optional sign,
digits, dots and commas (commas are stripped before parsing).
-/

/-- Value of a digit string. -/
def natOfDigits (l : List Char) : Nat :=
  l.foldl (fun a c => a * 10 + (c.toNat - 48)) 0

/-- `parseInt(s, 10)`: leading whitespace skipped, then a digit prefix; NaN
(here `none`) when no digit is found.  The parser only applies it to
digit-only capture groups. -/
def jsParseInt (s : String) : Option Nat :=
  let t := s.data.dropWhile fun c => jsSpaceChars.contains c
  let ds := t.takeWhile fun c => digitChars.contains c
  if ds.isEmpty then none else some (natOfDigits ds)

/-- `parseFloat(s)`: optional sign, integer digits, optional fraction; stops
at the first character that fits neither, NaN (here `none`) when no digit is
found. -/
def jsParseFloat (s : String) : Option ℚ :=
  let t := s.data.dropWhile fun c => jsSpaceChars.contains c
  let neg := match t with
    | '-' :: _ => true
    | _ => false
  let t1 := match t with
    | '+' :: r => r
    | '-' :: r => r
    | r => r
  let ds := t1.takeWhile fun c => digitChars.contains c
  let r1 := t1.drop ds.length
  let mag : Option ℚ :=
    match r1 with
    | '.' :: r2 =>
        let fs := r2.takeWhile fun c => digitChars.contains c
        if ds.isEmpty && fs.isEmpty then none
        else some ((natOfDigits ds : ℚ) + (natOfDigits fs : ℚ) / (10 ^ fs.length : ℚ))
    | _ => if ds.isEmpty then none else some (natOfDigits ds : ℚ)
  mag.map fun v => if neg then -v else v

/-- `String.prototype.toLowerCase`, on the character list. -/
def jsToLower (s : String) : String :=
  String.mk (s.data.map Char.toLower)

/-- JavaScript truthiness of a `number | null` (false for null, 0 and NaN). -/
def jsTruthy (o : Option ℚ) : Bool :=
  match o with
  | some q => q != 0
  | none => false

/-- `String.prototype.trim`. -/
def jsTrim (l : List Char) : List Char :=
  ((l.dropWhile fun c => jsSpaceChars.contains c).reverse.dropWhile
    fun c => jsSpaceChars.contains c).reverse

/-- `pad2` from `parser.ts`. -/
def pad2 (n : Nat) : String :=
  if n < 10 then "0" ++ toString n else toString n

/-- `toISO` from `parser.ts`. -/
def toISO (y m d : Nat) : String :=
  toString y ++ "-" ++ pad2 m ++ "-" ++ pad2 d

/-- The `MONTHS` table from `parser.ts`. -/
def MONTHS : List (String × Nat) :=
  [("JAN", 1), ("FEB", 2), ("MAR", 3), ("APR", 4), ("MAY", 5), ("JUN", 6),
   ("JUL", 7), ("AUG", 8), ("SEP", 9), ("OCT", 10), ("NOV", 11), ("DEC", 12)]

/-- `parseMonthToken` from `parser.ts`: trim, first three characters,
uppercased, looked up in `MONTHS`. -/
def parseMonthToken (tok : String) : Option Nat :=
  MONTHS.lookup (String.mk (((jsTrim tok.data).take 3).map Char.toUpper))

/-- `parseDateLike` from `parser.ts`: first `MMM[- ]?DD[- ]?(YYYY|YY)`
token, two-digit years shifted to 2000+, zero month/day/year rejected
(JavaScript falsiness). -/
def parseDateLike (s : String) : Option String :=
  match reSearch dateLikeRe s with
  | none => none
  | some (_, caps) =>
    match parseMonthToken ((caps.lookup 1).getD "") with
    | none => none
    | some month =>
      let day := (jsParseInt ((caps.lookup 2).getD "")).getD 0
      let year0 := (jsParseInt ((caps.lookup 3).getD "")).getD 0
      let year := if year0 < 100 then 2000 + year0 else year0
      if month = 0 ∨ day = 0 ∨ year = 0 then none
      else some (toISO year month day)

/-- Action field of a `ParsedTrade`. -/
inductive TradeAction where
  | buy
  | sell
  | expired
  deriving DecidableEq, Repr

/-- Open/close field of a `ParsedTrade`. -/
inductive OpenClose where
  | open
  | close
  deriving DecidableEq, Repr

/-- Sign attached to an inline amount. -/
inductive AmountSign where
  | plus
  | minus
  deriving DecidableEq, Repr

/-- Result of `parseSymbolCode`. -/
structure SymbolInfo where
  ticker : String
  type : LegType
  expiry : String
  strike : ℚ
  deriving DecidableEq, Repr

/-- `parseSymbolCode` from `parser.ts`. -/
def parseSymbolCode (s : String) : Option SymbolInfo :=
  match reSearch symbolCodeRe s with
  | none => none
  | some (_, caps) =>
    some { ticker := (caps.lookup 1).getD "",
           type := if (caps.lookup 5).getD "" = "C" then LegType.call else LegType.put,
           expiry := toISO (2000 + (jsParseInt ((caps.lookup 2).getD "")).getD 0)
                       ((jsParseInt ((caps.lookup 3).getD "")).getD 0)
                       ((jsParseInt ((caps.lookup 4).getD "")).getD 0),
           strike := ((jsParseInt ((caps.lookup 6).getD "")).getD 0 : ℚ) }

/-- Result of `parseDescriptionLine`. -/
structure DescInfo where
  ticker : Option String
  type : Option LegType
  expiry : Option String
  strike : Option ℚ
  contractSize : Option ℚ
  margin : Bool
  deriving DecidableEq, Repr

/-- `parseDescriptionLine` from `parser.ts`. -/
def parseDescriptionLine (s : String) : DescInfo :=
  let expiry : Option String :=
    match reSearch descExpiryRe s with
    | none => none
    | some (_, caps) =>
      match parseMonthToken ((caps.lookup 1).getD "") with
      | none => none
      | some month =>
        let day := (jsParseInt ((caps.lookup 2).getD "")).getD 0
        let year0 := (jsParseInt ((caps.lookup 3).getD "")).getD 0
        let year := if year0 < 100 then 2000 + year0 else year0
        if month ≠ 0 ∧ day ≠ 0 ∧ year ≠ 0 then some (toISO year month day) else none
  { ticker := reGroup parenTickerRe s 1,
    type := (reGroup putCallRe s 1).map fun t =>
      if jsToLower t = "put" then LegType.put else LegType.call,
    expiry := expiry,
    strike := (reGroup dollarStrikeRe s 1).bind jsParseFloat,
    contractSize := (reGroup shsRe s 1).bind fun x => (jsParseInt x).map fun n => (n : ℚ),
    margin := reTest parenMarginRe s }

/-- `parseActionOpenClose` from `parser.ts`. -/
def parseActionOpenClose (s : String) : Option TradeAction × Option OpenClose :=
  match reSearch actionRe s with
  | none => (none, none)
  | some (_, caps) =>
    (some (if jsToLower ((caps.lookup 1).getD "") = "bought"
           then TradeAction.buy else TradeAction.sell),
     some (if jsToLower ((caps.lookup 2).getD "") = "opening"
           then OpenClose.open else OpenClose.close))

/-- `parseContracts` from `parser.ts`: `Math.abs(parseFloat(m[1]))`. -/
def parseContracts (s : String) : Option ℚ :=
  match reGroup contractsRe s 1 with
  | some g => (jsParseFloat g).map fun x => |x|
  | none => none

/-- `parseAmount` from `parser.ts`: inline signed `+$N` / `-$N` first, then
the labelled `Amount` block; commas are stripped before parsing. -/
def parseAmount (s : String) : Option ℚ × Option AmountSign :=
  match reSearch amountSignRe s with
  | some (_, caps) =>
    (jsParseFloat (String.mk (((caps.lookup 2).getD "").data.filter fun c => c != ',')),
     some (if caps.lookup 1 = some "+" then AmountSign.plus else AmountSign.minus))
  | none =>
    match reSearch amountLabelRe s with
    | some (_, caps) =>
      (jsParseFloat (String.mk (((caps.lookup 1).getD "").data.filter fun c => c != ',')),
       none)
    | none => (none, none)

/-- `parseNumberAfterLabel` from `parser.ts`. -/
def parseNumberAfterLabel (s label : String) : Option ℚ :=
  match reGroup (labelNumRe label) s 1 with
  | none => none
  | some g => jsParseFloat (String.mk (g.data.filter fun c => c != ','))

/-- `ParsedTrade` from `parser.ts`. -/
structure ParsedTrade where
  action : Option TradeAction
  openClose : Option OpenClose
  type : Option LegType
  ticker : Option String
  expiry : Option String
  strike : Option ℚ
  contracts : Option ℚ
  contractSize : Option ℚ
  amount : Option ℚ
  amountSign : Option AmountSign
  price : Option ℚ
  commission : Option ℚ
  fees : Option ℚ
  date : Option String
  settlementDate : Option String
  symbol : Option String
  margin : Bool
  account : Option String
  deriving DecidableEq, Repr

/-- The preprocessing of `parseTradeText`:
`raw.replace(/\u00A0/g, ' ').trim()`. -/
def preprocess (raw : String) : String :=
  String.mk (jsTrim (raw.data.map fun c => if c = '\u00A0' then ' ' else c))

/-- `parseTradeText` from `parser.ts`: no-break spaces replaced, input
trimmed, the whole text treated as a single block, and one `ParsedTrade`
assembled per block from the independent extractors. -/
def parseTradeText (raw : String) : List ParsedTrade :=
  let text := preprocess raw
  let blocks := [text]
  blocks.map fun blk =>
    let symbolInfo := parseSymbolCode blk
    let descInfo := parseDescriptionLine blk
    let ao := parseActionOpenClose blk
    let contracts := parseContracts blk
    let am := parseAmount blk
    let dateLine :=
      match reGroup dateLabelRe blk 1 with
      | some line => parseDateLike line
      | none => parseDateLike blk
    let expired := reTest expiredRe blk
    { action := if expired then some TradeAction.expired else ao.1,
      openClose := if expired then none else ao.2,
      type := match symbolInfo with
              | some si => some si.type
              | none => descInfo.type,
      ticker := match symbolInfo with
                | some si => some si.ticker
                | none => descInfo.ticker,
      expiry := match symbolInfo with
                | some si => some si.expiry
                | none => descInfo.expiry,
      strike := match symbolInfo with
                | some si => some si.strike
                | none => descInfo.strike,
      contracts := match contracts with
                   | some c => some c
                   | none => if expired then some 1 else none,
      contractSize := match descInfo.contractSize with
                      | some cs => some cs
                      | none => some 100,
      amount := am.1,
      amountSign := am.2,
      price := parseNumberAfterLabel blk "Price",
      commission := parseNumberAfterLabel blk "Commission",
      fees := parseNumberAfterLabel blk "Fees",
      date := match dateLine with
              | some d => some d
              | none =>
                if expired then
                  match descInfo.expiry with
                  | some x => some x
                  | none =>
                    match symbolInfo with
                    | some si => some si.expiry
                    | none => none
                else none,
      settlementDate := if jsTruthy (parseNumberAfterLabel blk "Settlement date")
                        then parseDateLike blk else none,
      symbol := if symbolInfo.isSome then
                  match reSearch symbolFieldRe raw with
                  | some (m0, _) => some m0
                  | none => none
                else none,
      margin := descInfo.margin || reTest typeMarginRe blk || reTest parenMarginRe blk,
      account := match reSearch accountRe blk with
                 | some (m0, _) => some m0
                 | none => none }


/-- The character after a greedy class repetition must not extend it. -/
def restHeadNot (cs : List Char) : List Char → Prop
  | [] => True
  | c :: _ => c ∉ cs

/-- The previous-character value after consuming `xs` (its last character,
or the incoming one when nothing is consumed). -/
def lastPrevOf : List Char → Option Char → Option Char
  | [], p => p
  | c :: xs, _ => lastPrevOf xs (some c)

/-!
## Theorems about the risk and assessment engine
-/

lemma String.intercalate_singleton (a : String) : String.intercalate " " [a] = a := rfl

lemma String.intercalate_pair (a b : String) :
    String.intercalate " " [a, b] = a ++ " " ++ b := rfl

lemma warn_append_eq (x w1 w2 : String) (c1 : Bool) (p : Prop) [Decidable p] :
    (if ((if c1 then [w1] else []) ++ (if p then [w2] else [])).length > 0 then
      x ++ " " ++ String.intercalate " " ((if c1 then [w1] else []) ++ (if p then [w2] else []))
    else x) =
    (if p then (if c1 then x ++ " " ++ w1 else x) ++ " " ++ w2
     else (if c1 then x ++ " " ++ w1 else x)) := by
  cases c1 <;> by_cases hp : p <;>
    simp [hp, String.intercalate_pair, String.intercalate_singleton, String.append_assoc]

/-- C1: `generateAssessment` implements the spec's fixed ordered decision
table: rules 1 and 2 treat a missing pair and a non-finite `rr` specially,
rules 3-10 are evaluated top-to-bottom on `rr ?? 0` and `popEst ?? 0` with
first match winning, and afterwards the capital-limit warning is appended
exactly when `maxRisk > 5000` and the POP-unavailable warning exactly when
`popEst` is absent, independently of each other and of the matched rule. -/
theorem generateAssessment_implements_spec_table (m : Metrics) :
    generateAssessment m = specAssessment m := by
  unfold generateAssessment specAssessment
  simp only [show ((m.rr.map fun r => !r.isFinite).getD false) =
      (match m.rr with | some r => !r.isFinite | none => false) from by
    cases m.rr <;> rfl]
  split
  · rfl
  · split
    · rfl
    · congr 1
      rw [warn_append_eq]
      simp only [specRuleTable, firstMatch, JsNum.ge, JsNum.gt]

/-- C5: for a non-empty single-leg set with nonzero quantity, a buy leg has
`maxRisk = |entryPrice| * quantity * multiplier` (1 for stock, 100 for
options) and unbounded `maxReward`, and a sell leg has the mirrored result
with unbounded `maxRisk`. -/
theorem single_leg_risk_reward (leg : Leg) (e q : ℚ) (hq : q ≠ 0) :
    (leg.side = LegSide.buy →
      calculateMaxRisk [leg] e q =
        JsNum.fin (|e| * q * (if leg.type = LegType.stock then 1 else 100)) ∧
      calculateMaxReward [leg] e q = JsNum.inf) ∧
    (leg.side = LegSide.sell →
      calculateMaxReward [leg] e q =
        JsNum.fin (|e| * q * (if leg.type = LegType.stock then 1 else 100)) ∧
      calculateMaxRisk [leg] e q = JsNum.inf) := by
  unfold calculateMaxRisk calculateMaxReward
  constructor
  · intro hbuy
    simp [hq, hbuy, legMultiplier]
  · intro hsell
    have : leg.side ≠ LegSide.buy := by rw [hsell]; intro h; cases h
    simp [hq, hsell, this, legMultiplier]

/-- C5 witness: a long call at entry 5, quantity 1 risks 500 with unbounded
reward. -/
theorem single_leg_risk_reward_witness :
    (1 : ℚ) ≠ 0 ∧
    calculateMaxRisk [⟨LegType.call, LegSide.buy, some 100, none, none, 1⟩] 5 1 =
      JsNum.fin 500 ∧
    calculateMaxReward [⟨LegType.call, LegSide.buy, some 100, none, none, 1⟩] 5 1 =
      JsNum.inf := by
  have h := (single_leg_risk_reward
    ⟨LegType.call, LegSide.buy, some 100, none, none, 1⟩ 5 1 (by norm_num)).1 rfl
  refine ⟨by norm_num, ?_, h.2⟩
  rw [h.1]
  norm_num
  decide

/-- C2 counterexample: for the vertical credit spread short put 100 / long
put 95 at entry -2 with quantity 2, the code returns
`(strikeDiff - |entry|*100) * quantity = 600`, not the claimed
`strikeDiff - |entry|*100 = 300`. -/
theorem vertical_credit_maxRisk_counterexample :
    calculateMaxRisk
      [⟨LegType.put, LegSide.sell, some 100, none, none, 1⟩,
       ⟨LegType.put, LegSide.buy, some 95, none, none, 1⟩] (-2) 2 =
      JsNum.fin 600 ∧
    ¬ calculateMaxRisk
      [⟨LegType.put, LegSide.sell, some 100, none, none, 1⟩,
       ⟨LegType.put, LegSide.buy, some 95, none, none, 1⟩] (-2) 2 =
      JsNum.fin 300 := by
  have hv : isVerticalPair ⟨LegType.put, LegSide.sell, some 100, none, none, 1⟩
      ⟨LegType.put, LegSide.buy, some 95, none, none, 1⟩ = true := by decide
  have h : calculateMaxRisk
      [⟨LegType.put, LegSide.sell, some 100, none, none, 1⟩,
       ⟨LegType.put, LegSide.buy, some 95, none, none, 1⟩] (-2) 2 =
      JsNum.fin 600 := by
    unfold calculateMaxRisk
    norm_num [hv]
  refine ⟨h, ?_⟩
  rw [h]
  simp only [ne_eq, JsNum.fin.injEq]
  norm_num

/-- C2 (amended): for a two-leg vertical spread, a net credit
(`entryPrice < 0`) gives `maxRisk = (strikeDiff - |entryPrice|*100) * quantity`
and `maxReward = |entryPrice| * quantity * 100`; a net debit
(`entryPrice >= 0`) gives `maxRisk = |entryPrice| * quantity * 100` and
`maxReward = (strikeDiff - |entryPrice|*100) * quantity`; and scenario D
(long call 100 / short call 105, entry 2, quantity 1) yields
`maxRisk=200, maxReward=300, breakeven=[102]`. -/
theorem vertical_spread_metrics (leg1 leg2 : Leg) (k1 k2 e q : ℚ)
    (h1 : leg1.strike = some k1) (h2 : leg2.strike = some k2)
    (ht : leg1.type = leg2.type) (hns : leg1.type ≠ LegType.stock)
    (hside : leg1.side ≠ leg2.side) :
    (e < 0 →
      calculateMaxRisk [leg1, leg2] e q = JsNum.fin ((|k1 - k2| * 100 - |e| * 100) * q) ∧
      calculateMaxReward [leg1, leg2] e q = JsNum.fin (|e| * q * 100)) ∧
    (0 ≤ e →
      calculateMaxRisk [leg1, leg2] e q = JsNum.fin (|e| * q * 100) ∧
      calculateMaxReward [leg1, leg2] e q = JsNum.fin ((|k1 - k2| * 100 - |e| * 100) * q)) ∧
    (calculateMaxRisk
        [⟨LegType.call, LegSide.buy, some 100, none, none, 1⟩,
         ⟨LegType.call, LegSide.sell, some 105, none, none, 1⟩] 2 1 = JsNum.fin 200 ∧
     calculateMaxReward
        [⟨LegType.call, LegSide.buy, some 100, none, none, 1⟩,
         ⟨LegType.call, LegSide.sell, some 105, none, none, 1⟩] 2 1 = JsNum.fin 300 ∧
     calculateBreakeven
        [⟨LegType.call, LegSide.buy, some 100, none, none, 1⟩,
         ⟨LegType.call, LegSide.sell, some 105, none, none, 1⟩] 2 = [102]) := by
  have hns2 : leg2.type ≠ LegType.stock := ht ▸ hns
  have hv : isVerticalPair leg1 leg2 = true := by
    simp [isVerticalPair, h1, h2, ht, hside, hns, hns2]
  have hvD : isVerticalPair ⟨LegType.call, LegSide.buy, some 100, none, none, 1⟩
      ⟨LegType.call, LegSide.sell, some 105, none, none, 1⟩ = true := by decide
  refine ⟨?_, ?_, ?_, ?_, ?_⟩
  · intro he
    constructor
    · by_cases hq : q = 0
      · subst hq
        unfold calculateMaxRisk
        norm_num
      · unfold calculateMaxRisk
        simp [hq, hv, h1, h2, he]
    · by_cases hq : q = 0
      · subst hq
        unfold calculateMaxReward
        norm_num
      · unfold calculateMaxReward
        simp [hq, hv, h1, h2, he]
  · intro he
    constructor
    · by_cases hq : q = 0
      · subst hq
        unfold calculateMaxRisk
        norm_num
      · unfold calculateMaxRisk
        simp [hq, hv, h1, h2, not_lt.mpr he]
    · by_cases hq : q = 0
      · subst hq
        unfold calculateMaxReward
        norm_num
      · unfold calculateMaxReward
        simp [hq, hv, h1, h2, not_lt.mpr he]
  · unfold calculateMaxRisk
    norm_num [hvD]
  · unfold calculateMaxReward
    norm_num [hvD]
  · unfold calculateBreakeven
    norm_num [hvD]

/-- C2 witness: the amended credit-spread formulas evaluated on the short
put 100 / long put 95 spread at entry -2, quantity 2. -/
theorem vertical_spread_metrics_witness :
    calculateMaxRisk
      [⟨LegType.put, LegSide.sell, some 100, none, none, 1⟩,
       ⟨LegType.put, LegSide.buy, some 95, none, none, 1⟩] (-2) 2 = JsNum.fin 600 ∧
    calculateMaxReward
      [⟨LegType.put, LegSide.sell, some 100, none, none, 1⟩,
       ⟨LegType.put, LegSide.buy, some 95, none, none, 1⟩] (-2) 2 = JsNum.fin 400 := by
  have h := (vertical_spread_metrics
      ⟨LegType.put, LegSide.sell, some 100, none, none, 1⟩
      ⟨LegType.put, LegSide.buy, some 95, none, none, 1⟩ 100 95 (-2) 2
      rfl rfl rfl (by decide) (by decide)).1 (by norm_num)
  constructor
  · rw [h.1]; norm_num
  · rw [h.2]; norm_num

/-- C4 counterexample: a single stock leg does not yield an empty breakeven
list; the code returns `[entryPrice]`. -/
theorem breakeven_stock_counterexample :
    calculateBreakeven [⟨LegType.stock, LegSide.buy, none, none, none, 1⟩] 50 = [50] ∧
    calculateBreakeven [⟨LegType.stock, LegSide.buy, none, none, none, 1⟩] 50 ≠ [] := by
  constructor
  · unfold calculateBreakeven
    norm_num
  · unfold calculateBreakeven
    norm_num

/-- C4 (amended): `calculateBreakeven` satisfies the spec's case table, with
the one correction that a single stock leg returns `[entryPrice]` instead of
an empty list: a single option leg with a strike returns exactly one price
(`strike + |entryPrice|` for call-buy and put-sell, `strike - |entryPrice|`
for put-buy and call-sell); a single long call with strike K and premium
P >= 0 gives `[K + P]` and a single long put `[K - P]`; a two-leg vertical
spread uses the long leg's strike for a debit and the short leg's strike for
a credit, adjusted up for calls and down for puts; and every other shape
(no legs, option leg without strike, non-vertical pair, three or more legs)
returns an empty list. -/
theorem calculateBreakeven_case_table :
    (∀ (leg : Leg) (e : ℚ), leg.type = LegType.stock →
        calculateBreakeven [leg] e = [e]) ∧
    (∀ (leg : Leg) (k e : ℚ), leg.type ≠ LegType.stock → leg.strike = some k →
        calculateBreakeven [leg] e =
          [if leg.type = LegType.call
           then k + (if leg.side = LegSide.buy then |e| else -|e|)
           else k - (if leg.side = LegSide.buy then |e| else -|e|)]) ∧
    (∀ (K P : ℚ), 0 ≤ P →
        calculateBreakeven [⟨LegType.call, LegSide.buy, some K, none, none, 1⟩] P = [K + P] ∧
        calculateBreakeven [⟨LegType.put, LegSide.buy, some K, none, none, 1⟩] P = [K - P]) ∧
    (∀ (leg1 leg2 : Leg) (k1 k2 e : ℚ),
        leg1.strike = some k1 → leg2.strike = some k2 →
        leg1.type = leg2.type → leg1.type ≠ LegType.stock → leg1.side ≠ leg2.side →
        (0 < e → calculateBreakeven [leg1, leg2] e =
          [(if leg1.side = LegSide.buy then k1 else k2) +
             (if leg1.type = LegType.call then |e| else -|e|)]) ∧
        (e < 0 → calculateBreakeven [leg1, leg2] e =
          [(if leg1.side = LegSide.sell then k1 else k2) +
             (if leg1.type = LegType.call then |e| else -|e|)])) ∧
    (∀ (e : ℚ), calculateBreakeven [] e = []) ∧
    (∀ (leg : Leg) (e : ℚ), leg.type ≠ LegType.stock → leg.strike = none →
        calculateBreakeven [leg] e = []) ∧
    (∀ (leg1 leg2 : Leg) (e : ℚ), isVerticalPair leg1 leg2 = false →
        calculateBreakeven [leg1, leg2] e = []) ∧
    (∀ (legs : List Leg) (e : ℚ), 3 ≤ legs.length → calculateBreakeven legs e = []) := by
  refine ⟨?_, ?_, ?_, ?_, ?_, ?_, ?_, ?_⟩
  · intro leg e hstock
    unfold calculateBreakeven
    simp [hstock]
  · intro leg k e hns hk
    unfold calculateBreakeven
    rcases htype : leg.type <;> rcases hside : leg.side <;>
      simp [hns, hk, htype, hside] <;> simp [htype] at hns
  · intro K P hP
    constructor
    · have : |P| = P := abs_of_nonneg hP
      unfold calculateBreakeven
      simp [this]
    · have : |P| = P := abs_of_nonneg hP
      unfold calculateBreakeven
      simp [this]
  · intro leg1 leg2 k1 k2 e h1 h2 ht hns hside
    have hns2 : leg2.type ≠ LegType.stock := ht ▸ hns
    have hv : isVerticalPair leg1 leg2 = true := by
      simp [isVerticalPair, h1, h2, ht, hside, hns, hns2]
    constructor
    · intro he
      unfold calculateBreakeven
      rcases htype : leg1.type <;> rcases hside1 : leg1.side <;>
        simp_all [hv, h1, h2, he, sub_eq_add_neg] <;>
        (try (split_ifs <;> simp_all))
    · intro he
      have hne : ¬ (0 : ℚ) < e := by linarith
      unfold calculateBreakeven
      rcases htype : leg1.type <;> rcases hside1 : leg1.side <;>
        simp_all [hv, h1, h2, hne, sub_eq_add_neg] <;>
        (try (split_ifs <;> simp_all)) <;> (try linarith)
  · intro e
    unfold calculateBreakeven
    simp
  · intro leg e hns hnone
    unfold calculateBreakeven
    simp [hns, hnone]
  · intro leg1 leg2 e hnv
    unfold calculateBreakeven
    simp [hnv]
  · intro legs e hlen
    unfold calculateBreakeven
    match legs with
    | a :: b :: c :: rest => rfl
    | [] => simp at hlen
    | [a] => simp at hlen
    | [a, b] => simp at hlen

/-- C4 witness: a single long call (strike 100, premium 5) breaks even at
105, a single long put at 95, instantiating the amended case table. -/
theorem calculateBreakeven_case_table_witness :
    (0 : ℚ) ≤ 5 ∧
    calculateBreakeven [⟨LegType.call, LegSide.buy, some 100, none, none, 1⟩] 5 = [105] ∧
    calculateBreakeven [⟨LegType.put, LegSide.buy, some 100, none, none, 1⟩] 5 = [95] := by
  have h := calculateBreakeven_case_table.2.2.1 100 5 (by norm_num)
  refine ⟨by norm_num, ?_, ?_⟩
  · rw [h.1]; norm_num
  · rw [h.2]; norm_num

/-!
## Theorems about the confirmation parser
-/

/-- C3 counterexample: on the empty string the parser does not return an
empty sequence; it returns one all-absent record. -/
theorem parseTradeText_empty_not_nil : parseTradeText "" ≠ [] := by decide

/-- C3 (amended): `parse` is total (the embedding is a total function, so no
exception path exists) and returns exactly one `ParsedTrade` per call for
every input; for empty and whitespace-only input it returns one record with
every extracted field absent (only the `contractSize` default 100 and
`margin := false` populated), not an empty sequence. -/
theorem parseTradeText_total_one_record :
    (∀ raw : String, parseTradeText raw ≠ []) ∧
    parseTradeText "" =
      [⟨none, none, none, none, none, none, none, some 100, none, none,
        none, none, none, none, none, none, false, none⟩] ∧
    parseTradeText " \n\t  " =
      [⟨none, none, none, none, none, none, none, some 100, none, none,
        none, none, none, none, none, none, false, none⟩] := by
  refine ⟨?_, by decide, by decide⟩
  intro raw
  unfold parseTradeText
  simp

/-- C10: for every input string - including empty input, whitespace, and
several pasted confirmation blocks - `parseTradeText` returns a list of
exactly one `ParsedTrade`: the whole input is one block. -/
theorem parseTradeText_always_singleton (raw : String) :
    (parseTradeText raw).length = 1 := rfl

/-- C7: an input whose processed text contains the EXPIRED marker gets
`action = expired`; when no Contracts value is present the contracts default
is 1; and when no Date label exists, the first month-day-year token found in
the block becomes the transaction date.  Scenario C parses exactly as the
spec states. -/
theorem parseTradeText_expired_notice (raw : String) (d : String)
    (hexp : reTest expiredRe (preprocess raw) = true)
    (hnc : parseContracts (preprocess raw) = none)
    (hnl : reGroup dateLabelRe (preprocess raw) 1 = none)
    (hd : parseDateLike (preprocess raw) = some d) :
    ((parseTradeText raw).head?.map ParsedTrade.action = some (some TradeAction.expired) ∧
     (parseTradeText raw).head?.map ParsedTrade.contracts = some (some 1) ∧
     (parseTradeText raw).head?.map ParsedTrade.date = some (some d)) ∧
    ((parseTradeText "EXPIRED PUT (IREN) IREN LIMITED COM NPVJAN 16 26 $45 as of Jan-16-2026").head?.map
       ParsedTrade.action = some (some TradeAction.expired) ∧
     (parseTradeText "EXPIRED PUT (IREN) IREN LIMITED COM NPVJAN 16 26 $45 as of Jan-16-2026").head?.map
       ParsedTrade.ticker = some (some "IREN") ∧
     (parseTradeText "EXPIRED PUT (IREN) IREN LIMITED COM NPVJAN 16 26 $45 as of Jan-16-2026").head?.map
       ParsedTrade.type = some (some LegType.put) ∧
     (parseTradeText "EXPIRED PUT (IREN) IREN LIMITED COM NPVJAN 16 26 $45 as of Jan-16-2026").head?.map
       ParsedTrade.expiry = some (some "2026-01-16") ∧
     (parseTradeText "EXPIRED PUT (IREN) IREN LIMITED COM NPVJAN 16 26 $45 as of Jan-16-2026").head?.map
       ParsedTrade.strike = some (some 45) ∧
     (parseTradeText "EXPIRED PUT (IREN) IREN LIMITED COM NPVJAN 16 26 $45 as of Jan-16-2026").head?.map
       ParsedTrade.date = some (some "2026-01-16") ∧
     (parseTradeText "EXPIRED PUT (IREN) IREN LIMITED COM NPVJAN 16 26 $45 as of Jan-16-2026").head?.map
       ParsedTrade.contracts = some (some 1)) := by
  constructor
  · unfold parseTradeText
    simp [hexp, hnc, hnl, hd]
  · exact ⟨by decide, by decide, by decide, by decide, by decide, by decide, by decide⟩

/-- C7 witness: scenario C itself satisfies every hypothesis of the general
statement, with the found date Jan-16-2026. -/
theorem parseTradeText_expired_notice_witness :
    (parseTradeText "EXPIRED PUT (IREN) IREN LIMITED COM NPVJAN 16 26 $45 as of Jan-16-2026").head?.map
      ParsedTrade.action = some (some TradeAction.expired) ∧
    (parseTradeText "EXPIRED PUT (IREN) IREN LIMITED COM NPVJAN 16 26 $45 as of Jan-16-2026").head?.map
      ParsedTrade.contracts = some (some 1) ∧
    (parseTradeText "EXPIRED PUT (IREN) IREN LIMITED COM NPVJAN 16 26 $45 as of Jan-16-2026").head?.map
      ParsedTrade.date = some (some "2026-01-16") :=
  (parseTradeText_expired_notice
    "EXPIRED PUT (IREN) IREN LIMITED COM NPVJAN 16 26 $45 as of Jan-16-2026"
    "2026-01-16" (by decide) (by decide) (by decide) (by decide)).1

/-- C8: at the failing input, a "Settlement date" line whose next line holds
the month-day-year token Jan-16-2026, the code leaves `settlementDate`
absent: the extraction is gated on parsing the labelled value as a number,
which a month-name date never satisfies. -/
theorem settlementDate_not_normalized :
    (parseTradeText "Settlement date\nJan-16-2026").head?.map
      ParsedTrade.settlementDate = some none ∧
    parseDateLike "Jan-16-2026" = some "2026-01-16" := by
  exact ⟨by decide, by decide⟩

/-!
## Lemmas for the symbol-code claim

The decode theorem for `parseSymbolCode` is universal over the token's
characters, so the matcher is evaluated symbolically.  The engine explores
alternatives in greedy order; the head of each component's result list is
the maximal-consumption outcome, and the overall search result is the head
of the composed list, so only head shapes need to be tracked.
-/

lemma mem_all_prop {l : List Char} {p : Char → Bool} (h : l.all p = true)
    {c : Char} (hc : c ∈ l) : p c = true :=
  List.all_eq_true.mp h c hc

lemma upper_not_digit {c : Char} (h : c ∈ upperChars) : c ∉ digitChars := by
  simpa using mem_all_prop (p := fun c => !(digitChars.contains c)) (by decide) h

lemma upper_not_pm {c : Char} (h : c ∈ upperChars) : c ∉ (['+', '-'] : List Char) := by
  simpa using mem_all_prop (p := fun c => !((['+', '-'] : List Char).contains c)) (by decide) h

lemma digit_not_upper {c : Char} (h : c ∈ digitChars) : c ∉ upperChars := by
  simpa using mem_all_prop (p := fun c => !(upperChars.contains c)) (by decide) h

lemma digit_not_space {c : Char} (h : c ∈ digitChars) : c ∉ jsSpaceChars := by
  simpa using mem_all_prop (p := fun c => !(jsSpaceChars.contains c)) (by decide) h

lemma runs_set_nil (cs : List Char) (f : Nat) (p : Option Char) (caps : Caps) :
    RE.runs f (RE.set cs) [] p caps = [] := by
  cases f <;> simp [RE.runs]

lemma runs_set_cons_true (cs : List Char) (f : Nat) {c : Char} (h : c ∈ cs)
    (r : List Char) (p : Option Char) (caps : Caps) :
    RE.runs (f + 1) (RE.set cs) (c :: r) p caps = [(r, some c, caps)] := by
  simp [RE.runs, h]

lemma runs_set_cons_false (cs : List Char) (f : Nat) {c : Char} (h : c ∉ cs)
    (r : List Char) (p : Option Char) (caps : Caps) :
    RE.runs f (RE.set cs) (c :: r) p caps = [] := by
  cases f <;> simp [RE.runs, h]

lemma runs_seq_succ (f : Nat) (a b : RE) (s : List Char) (p : Option Char) (caps : Caps) :
    RE.runs (f + 1) (RE.seq a b) s p caps =
      (RE.runs f a s p caps).flatMap fun x => RE.runs f b x.1 x.2.1 x.2.2 := rfl

lemma runs_grp_succ (f : Nat) (i : Nat) (r : RE) (s : List Char) (p : Option Char)
    (caps : Caps) :
    RE.runs (f + 1) (RE.grp i r) s p caps =
      (RE.runs f r s p caps).map fun x =>
        (x.1, x.2.1, (i, String.mk (s.take (s.length - x.1.length))) :: x.2.2) := rfl

lemma runs_rep_zero (f lo : Nat) (r : RE) (s : List Char) (p : Option Char) (caps : Caps) :
    RE.runs (f + 1) (RE.rep lo (some 0) r) s p caps = [(s, p, caps)] := rfl

lemma runs_rep_succ (f lo hi' : Nat) (r : RE) (s : List Char) (p : Option Char) (caps : Caps) :
    RE.runs (f + 1) (RE.rep lo (some (hi' + 1)) r) s p caps =
      (if lo = 0 then
        ((RE.runs f r s p caps).flatMap fun x =>
          if x.1.length < s.length then
            RE.runs f (RE.rep (lo - 1) (some hi') r) x.1 x.2.1 x.2.2
          else if lo ≤ 1 then [x] else []) ++ [(s, p, caps)]
       else
        (RE.runs f r s p caps).flatMap fun x =>
          if x.1.length < s.length then
            RE.runs f (RE.rep (lo - 1) (some hi') r) x.1 x.2.1 x.2.2
          else if lo ≤ 1 then [x] else []) := rfl

/-- Head of a greedy bounded repetition of a character class: consuming the
whole uniform run `xs` is the preferred outcome. -/
lemma runs_rep_set_head (cs : List Char) (xs : List Char) :
    ∀ (f lo hi : Nat) (rest : List Char) (p : Option Char) (caps : Caps),
      (∀ c ∈ xs, c ∈ cs) →
      (xs.length = hi ∨ restHeadNot cs rest) →
      lo ≤ xs.length → xs.length ≤ hi →
      ∃ t, RE.runs (f + xs.length + 1) (RE.rep lo (some hi) (RE.set cs)) (xs ++ rest) p caps =
        (rest, lastPrevOf xs p, caps) :: t := by
  induction xs with
  | nil =>
    intro f lo hi rest p caps _ hrest hlo _
    simp only [List.length_nil] at hlo hrest
    have hlo0 : lo = 0 := by omega
    subst hlo0
    refine ⟨[], ?_⟩
    cases hi with
    | zero => simp [RE.runs, lastPrevOf]
    | succ hi' =>
      have hr : RE.runs f (RE.set cs) rest p caps = [] := by
        cases rest with
        | nil => exact runs_set_nil cs _ p caps
        | cons c r =>
          rcases hrest with h | h
          · omega
          · exact runs_set_cons_false cs _ h r p caps
      simp [RE.runs, hr, lastPrevOf]
  | cons c xs' ih =>
    intro f lo hi rest p caps hall hrest hlo hhi
    have hc : c ∈ cs := hall c (by simp)
    simp only [List.length_cons] at hlo hhi hrest
    cases hi with
    | zero => omega
    | succ hi' =>
      have hbody : RE.runs (f + xs'.length + 1) (RE.set cs) (c :: (xs' ++ rest)) p caps =
          [(xs' ++ rest, some c, caps)] := runs_set_cons_true cs _ hc _ p caps
      obtain ⟨t', ht'⟩ := ih f (lo - 1) hi' rest (some c) caps
        (fun d hd => hall d (by simp [hd]))
        (by rcases hrest with h | h
            · left; omega
            · right; exact h)
        (by omega) (by omega)
      refine ⟨if lo = 0 then t' ++ [(c :: (xs' ++ rest), p, caps)] else t', ?_⟩
      rw [show (c :: xs') ++ rest = c :: (xs' ++ rest) from rfl]
      simp only [List.length_cons]
      rw [show f + (xs'.length + 1) + 1 = ((f + xs'.length + 1)) + 1 from by omega]
      rw [runs_rep_succ]
      rw [hbody]
      simp only [List.flatMap_cons, List.flatMap_nil, List.append_nil]
      have hlen : (xs' ++ rest).length < (c :: (xs' ++ rest)).length := by simp
      simp only [if_pos hlen]
      rw [ht']
      rw [show lastPrevOf xs' (some c) = lastPrevOf (c :: xs') p from rfl]
      split
      · simp
      · simp

lemma take_append_sub (a b : List Char) :
    (a ++ b).take ((a ++ b).length - b.length) = a := by
  simp [List.length_append]

section SymbolHead

variable (st : List Char) (cp y1 y2 m1 m2 d1 d2 : Char)

lemma symbol_g6_head (hst2 : 2 ≤ st.length) (hst4 : st.length ≤ 4)
    (hstD : ∀ c ∈ st, c ∈ digitChars) :
    ∀ f, st.length + 3 ≤ f → ∀ (p : Option Char) (caps : Caps),
    ∃ pf t, RE.runs f (RE.grp 6 (RE.rep 2 (some 4) (RE.set digitChars))) st p caps =
      ([], pf, (6, String.mk st) :: caps) :: t := by
  intro f hf p caps
  obtain ⟨f1, rfl⟩ : ∃ f1, f = f1 + 1 := ⟨f - 1, by omega⟩
  rw [runs_grp_succ]
  obtain ⟨f2, rfl⟩ : ∃ f2, f1 = f2 + st.length + 1 := ⟨f1 - st.length - 1, by omega⟩
  obtain ⟨t, ht⟩ := runs_rep_set_head digitChars st f2 2 4 [] p caps hstD
    (Or.inr trivial) hst2 hst4
  rw [show st ++ ([] : List Char) = st from by simp] at ht
  rw [ht]
  simp only [List.map_cons, List.length_nil, Nat.sub_zero, List.take_length]
  exact ⟨_, _, rfl⟩

lemma symbol_g56_head (hcp : cp ∈ (['C', 'P'] : List Char))
    (hst2 : 2 ≤ st.length) (hst4 : st.length ≤ 4)
    (hstD : ∀ c ∈ st, c ∈ digitChars) :
    ∀ f, st.length + 6 ≤ f → ∀ (p : Option Char) (caps : Caps),
    ∃ pf t, RE.runs f
        (RE.seq (RE.grp 5 (RE.set ['C', 'P']))
          (RE.grp 6 (RE.rep 2 (some 4) (RE.set digitChars)))) (cp :: st) p caps =
      ([], pf, (6, String.mk st) :: (5, String.mk [cp]) :: caps) :: t := by
  intro f hf p caps
  obtain ⟨f1, rfl⟩ : ∃ f1, f = f1 + 1 := ⟨f - 1, by omega⟩
  rw [runs_seq_succ]
  obtain ⟨f2, rfl⟩ : ∃ f2, f1 = f2 + 1 := ⟨f1 - 1, by omega⟩
  rw [runs_grp_succ]
  obtain ⟨f3, rfl⟩ : ∃ f3, f2 = f3 + 1 := ⟨f2 - 1, by omega⟩
  rw [runs_set_cons_true _ _ hcp]
  simp only [List.map_cons, List.map_nil]
  have hlen : (cp :: st).length - st.length = 1 := by simp
  rw [hlen]
  rw [show (cp :: st).take 1 = [cp] from rfl]
  simp only [List.flatMap_cons, List.flatMap_nil, List.append_nil]
  obtain ⟨pf, t6, h6⟩ := symbol_g6_head st hst2 hst4 hstD (f3 + 1 + 1) (by omega)
    (some cp) ((5, String.mk [cp]) :: caps)
  rw [h6]
  exact ⟨pf, t6, rfl⟩

end SymbolHead

/-- One digit-pair group followed by the rest of the symbol regex. -/
lemma symbol_pair_step (i : Nat) {a b : Char} (ha : a ∈ digitChars) (hb : b ∈ digitChars)
    (K : RE) (rest : List Char) (bound : Nat) (capsF : Caps → Caps)
    (hK : ∀ f, bound ≤ f → ∀ (p : Option Char) (caps : Caps),
      ∃ pf t, RE.runs f K rest p caps = ([], pf, capsF caps) :: t) :
    ∀ f, bound + 6 ≤ f → ∀ (p : Option Char) (caps : Caps),
    ∃ pf t, RE.runs f (RE.seq (RE.grp i (RE.rep 2 (some 2) (RE.set digitChars))) K)
        (a :: b :: rest) p caps =
      ([], pf, capsF ((i, String.mk [a, b]) :: caps)) :: t := by
  intro f hf p caps
  obtain ⟨f1, rfl⟩ : ∃ f1, f = f1 + 1 := ⟨f - 1, by omega⟩
  rw [runs_seq_succ]
  obtain ⟨f2, rfl⟩ : ∃ f2, f1 = f2 + 1 := ⟨f1 - 1, by omega⟩
  rw [runs_grp_succ]
  obtain ⟨f3, rfl⟩ : ∃ f3, f2 = f3 + 2 + 1 := ⟨f2 - 3, by omega⟩
  obtain ⟨t, ht⟩ := runs_rep_set_head digitChars [a, b] f3 2 2 rest p caps
    (by intro c hc
        rcases (by simpa using hc : c = a ∨ c = b) with rfl | rfl
        · exact ha
        · exact hb)
    (Or.inl rfl) (by simp) (by simp)
  simp only [show ([a, b] : List Char).length = 2 from rfl, List.cons_append,
    List.nil_append] at ht
  rw [ht]
  simp only [List.map_cons]
  have hlen : (a :: b :: rest).length - rest.length = 2 := by
    simp only [List.length_cons]
    omega
  rw [hlen]
  rw [show (a :: b :: rest).take 2 = [a, b] from rfl]
  simp only [List.flatMap_cons]
  obtain ⟨pf, tK, hKr⟩ := hK (f3 + 2 + 1 + 1) (by omega) (some b) ((i, String.mk [a, b]) :: caps)
  simp only [lastPrevOf]
  rw [hKr]
  exact ⟨pf, _, by rw [List.cons_append]⟩

/-- The ticker group followed by the rest of the symbol regex. -/
lemma symbol_letters_step (K : RE) (rest : List Char) (bound : Nat) (capsF : Caps → Caps)
    (tk : List Char) (htk1 : tk ≠ []) (htk6 : tk.length ≤ 6)
    (htkU : ∀ c ∈ tk, c ∈ upperChars)
    (hrest : restHeadNot upperChars rest)
    (hK : ∀ f, bound ≤ f → ∀ (p : Option Char) (caps : Caps),
      ∃ pf t, RE.runs f K rest p caps = ([], pf, capsF caps) :: t) :
    ∀ f, bound + tk.length + 6 ≤ f → ∀ (p : Option Char) (caps : Caps),
    ∃ pf t, RE.runs f
        (RE.seq (RE.grp 1 (RE.rep 1 (some 6) (RE.set upperChars))) K) (tk ++ rest) p caps =
      ([], pf, capsF ((1, String.mk tk) :: caps)) :: t := by
  intro f hf p caps
  obtain ⟨f1, rfl⟩ : ∃ f1, f = f1 + 1 := ⟨f - 1, by omega⟩
  rw [runs_seq_succ]
  obtain ⟨f2, rfl⟩ : ∃ f2, f1 = f2 + 1 := ⟨f1 - 1, by omega⟩
  rw [runs_grp_succ]
  obtain ⟨f3, rfl⟩ : ∃ f3, f2 = f3 + tk.length + 1 := ⟨f2 - tk.length - 1, by omega⟩
  obtain ⟨t, ht⟩ := runs_rep_set_head upperChars tk f3 1 6 rest p caps htkU
    (Or.inr hrest) (by have := List.length_pos.mpr htk1; omega) htk6
  rw [ht]
  simp only [List.map_cons]
  rw [take_append_sub]
  simp only [List.flatMap_cons]
  obtain ⟨pf, tK, hKr⟩ := hK (f3 + tk.length + 1 + 1) (by omega) (lastPrevOf tk p)
    ((1, String.mk tk) :: caps)
  rw [hKr]
  exact ⟨pf, _, by rw [List.cons_append]⟩

lemma runs_opt_set_skip (cs : List Char) (f : Nat) {s : List Char}
    (h : restHeadNot cs s) (p : Option Char) (caps : Caps) :
    RE.runs (f + 1) (RE.rep 0 (some 1) (RE.set cs)) s p caps = [(s, p, caps)] := by
  rw [runs_rep_succ]
  have hset : RE.runs f (RE.set cs) s p caps = [] := by
    cases s with
    | nil => exact runs_set_nil cs f p caps
    | cons c r => exact runs_set_cons_false cs f h r p caps
  simp [hset]

lemma runs_opt_set_take (cs : List Char) (f : Nat) {c : Char} (h : c ∈ cs)
    (r : List Char) (p : Option Char) (caps : Caps) :
    RE.runs (f + 1 + 1) (RE.rep 0 (some 1) (RE.set cs)) (c :: r) p caps =
      [(r, some c, caps), (c :: r, p, caps)] := by
  rw [runs_rep_succ]
  rw [runs_set_cons_true cs f h r p caps]
  simp only [List.flatMap_cons, List.flatMap_nil, List.append_nil]
  have hlen : r.length < (c :: r).length := by simp
  rw [if_pos hlen]
  simp only [show (0 : Nat) - 1 = 0 from rfl, show ((1 : Nat) - 1) = 0 from rfl]
  rw [runs_rep_zero]
  simp

/-- The optional sign followed by the rest of the symbol regex. -/
lemma symbol_sign_step (K : RE) (rest0 : List Char) (bound : Nat) (capsF : Caps → Caps)
    (sgn : List Char)
    (hsgn : sgn = [] ∨ sgn = ['+'] ∨ sgn = ['-'])
    (hhead : restHeadNot ['+', '-'] rest0)
    (hK : ∀ f, bound ≤ f → ∀ (p : Option Char) (caps : Caps),
      ∃ pf t, RE.runs f K rest0 p caps = ([], pf, capsF caps) :: t) :
    ∀ f, bound + 6 ≤ f → ∀ (p : Option Char) (caps : Caps),
    ∃ pf t, RE.runs f (RE.seq (RE.rep 0 (some 1) (RE.set ['+', '-'])) K)
        (sgn ++ rest0) p caps =
      ([], pf, capsF caps) :: t := by
  intro f hf p caps
  obtain ⟨f1, rfl⟩ : ∃ f1, f = f1 + 1 := ⟨f - 1, by omega⟩
  rw [runs_seq_succ]
  rcases hsgn with rfl | rfl | rfl
  · obtain ⟨f2, rfl⟩ : ∃ f2, f1 = f2 + 1 := ⟨f1 - 1, by omega⟩
    rw [List.nil_append, runs_opt_set_skip _ _ hhead]
    simp only [List.flatMap_cons, List.flatMap_nil, List.append_nil]
    obtain ⟨pf, tK, hKr⟩ := hK (f2 + 1) (by omega) p caps
    rw [hKr]
    exact ⟨pf, tK, rfl⟩
  · obtain ⟨f2, rfl⟩ : ∃ f2, f1 = f2 + 1 + 1 := ⟨f1 - 2, by omega⟩
    rw [show ['+'] ++ rest0 = '+' :: rest0 from rfl,
      runs_opt_set_take _ _ (by decide) rest0 p caps]
    simp only [List.flatMap_cons, List.flatMap_nil, List.append_nil]
    obtain ⟨pf, tK, hKr⟩ := hK (f2 + 1 + 1) (by omega) (some '+') caps
    rw [hKr]
    exact ⟨pf, _, by rw [List.cons_append]⟩
  · obtain ⟨f2, rfl⟩ : ∃ f2, f1 = f2 + 1 + 1 := ⟨f1 - 2, by omega⟩
    rw [show ['-'] ++ rest0 = '-' :: rest0 from rfl,
      runs_opt_set_take _ _ (by decide) rest0 p caps]
    simp only [List.flatMap_cons, List.flatMap_nil, List.append_nil]
    obtain ⟨pf, tK, hKr⟩ := hK (f2 + 1 + 1) (by omega) (some '-') caps
    rw [hKr]
    exact ⟨pf, _, by rw [List.cons_append]⟩

lemma string_data_mk (l : List Char) : (String.mk l).data = l := rfl

/-- Leftmost match of the symbol-code regex on a well-formed token: every
group captures its component. -/
lemma reSearch_symbolCode
    (sgn tk st : List Char) (y1 y2 m1 m2 d1 d2 cp : Char)
    (hsgn : sgn = [] ∨ sgn = ['+'] ∨ sgn = ['-'])
    (htk1 : tk ≠ []) (htk6 : tk.length ≤ 6)
    (htkU : ∀ c ∈ tk, c ∈ upperChars)
    (hy1 : y1 ∈ digitChars) (hy2 : y2 ∈ digitChars)
    (hm1 : m1 ∈ digitChars) (hm2 : m2 ∈ digitChars)
    (hd1 : d1 ∈ digitChars) (hd2 : d2 ∈ digitChars)
    (hcp : cp ∈ (['C', 'P'] : List Char))
    (hst2 : 2 ≤ st.length) (hst4 : st.length ≤ 4)
    (hstD : ∀ c ∈ st, c ∈ digitChars) :
    ∃ m0, reSearch symbolCodeRe
        (String.mk (sgn ++ (tk ++ (y1 :: y2 :: m1 :: m2 :: d1 :: d2 :: cp :: st)))) =
      some (m0, [(6, String.mk st), (5, String.mk [cp]), (4, String.mk [d1, d2]),
                 (3, String.mk [m1, m2]), (2, String.mk [y1, y2]), (1, String.mk tk)]) := by
  have h56 := symbol_g56_head st cp hcp hst2 hst4 hstD
  have h4 := symbol_pair_step 4 hd1 hd2 _ (cp :: st) (st.length + 6)
    (fun caps => (6, String.mk st) :: (5, String.mk [cp]) :: caps) h56
  have h3 := symbol_pair_step 3 hm1 hm2 _ (d1 :: d2 :: cp :: st) (st.length + 6 + 6)
    (fun caps => (6, String.mk st) :: (5, String.mk [cp]) ::
      (4, String.mk [d1, d2]) :: caps) h4
  have h2 := symbol_pair_step 2 hy1 hy2 _ (m1 :: m2 :: d1 :: d2 :: cp :: st)
    (st.length + 6 + 6 + 6)
    (fun caps => (6, String.mk st) :: (5, String.mk [cp]) ::
      (4, String.mk [d1, d2]) :: (3, String.mk [m1, m2]) :: caps) h3
  have h1 := symbol_letters_step _ (y1 :: y2 :: m1 :: m2 :: d1 :: d2 :: cp :: st)
    (st.length + 6 + 6 + 6 + 6)
    (fun caps => (6, String.mk st) :: (5, String.mk [cp]) ::
      (4, String.mk [d1, d2]) :: (3, String.mk [m1, m2]) ::
      (2, String.mk [y1, y2]) :: caps)
    tk htk1 htk6 htkU (digit_not_upper hy1) h2
  have hheadpm : restHeadNot ['+', '-'] (tk ++ (y1 :: y2 :: m1 :: m2 :: d1 :: d2 :: cp :: st)) := by
    cases tk with
    | nil => exact absurd rfl htk1
    | cons c0 tk' => exact upper_not_pm (htkU c0 (by simp))
  have h0 := symbol_sign_step _ (tk ++ (y1 :: y2 :: m1 :: m2 :: d1 :: d2 :: cp :: st))
    (st.length + 6 + 6 + 6 + 6 + tk.length + 6)
    (fun caps => (6, String.mk st) :: (5, String.mk [cp]) ::
      (4, String.mk [d1, d2]) :: (3, String.mk [m1, m2]) ::
      (2, String.mk [y1, y2]) :: (1, String.mk tk) :: caps)
    sgn hsgn hheadpm h1
  have hlen : (sgn ++ (tk ++ (y1 :: y2 :: m1 :: m2 :: d1 :: d2 :: cp :: st))).length =
      sgn.length + tk.length + 7 + st.length := by
    simp [List.length_append]
    omega
  obtain ⟨pf, t, htop⟩ := h0
    ((25 + 1) *
      ((sgn ++ (tk ++ (y1 :: y2 :: m1 :: m2 :: d1 :: d2 :: cp :: st))).length + 2))
    (by rw [hlen]; omega) none []
  have hstep : reStep symbolCodeRe
      (sgn ++ (tk ++ (y1 :: y2 :: m1 :: m2 :: d1 :: d2 :: cp :: st))) none =
      some (String.mk ((sgn ++ (tk ++ (y1 :: y2 :: m1 :: m2 :: d1 :: d2 :: cp :: st))).take
              ((sgn ++ (tk ++ (y1 :: y2 :: m1 :: m2 :: d1 :: d2 :: cp :: st))).length - 0)),
            [(6, String.mk st), (5, String.mk [cp]), (4, String.mk [d1, d2]),
             (3, String.mk [m1, m2]), (2, String.mk [y1, y2]), (1, String.mk tk)]) := by
    rw [reStep]
    rw [show RE.size symbolCodeRe = 25 from rfl]
    rw [show symbolCodeRe =
      RE.seq (RE.rep 0 (some 1) (RE.set ['+', '-']))
        (RE.seq (RE.grp 1 (RE.rep 1 (some 6) (RE.set upperChars)))
          (RE.seq (RE.grp 2 (RE.rep 2 (some 2) (RE.set digitChars)))
            (RE.seq (RE.grp 3 (RE.rep 2 (some 2) (RE.set digitChars)))
              (RE.seq (RE.grp 4 (RE.rep 2 (some 2) (RE.set digitChars)))
                (RE.seq (RE.grp 5 (RE.set ['C', 'P']))
                  (RE.grp 6 (RE.rep 2 (some 4) (RE.set digitChars)))))))) from rfl]
    rw [htop]
    simp
  refine ⟨String.mk ((sgn ++ (tk ++ (y1 :: y2 :: m1 :: m2 :: d1 :: d2 :: cp :: st))).take
      ((sgn ++ (tk ++ (y1 :: y2 :: m1 :: m2 :: d1 :: d2 :: cp :: st))).length - 0)), ?_⟩
  rw [show reSearch symbolCodeRe
        (String.mk (sgn ++ (tk ++ (y1 :: y2 :: m1 :: m2 :: d1 :: d2 :: cp :: st)))) =
      reSearchFrom symbolCodeRe
        (sgn ++ (tk ++ (y1 :: y2 :: m1 :: m2 :: d1 :: d2 :: cp :: st))) none from rfl]
  cases hsl : sgn ++ (tk ++ (y1 :: y2 :: m1 :: m2 :: d1 :: d2 :: cp :: st)) with
  | nil =>
    rw [hsl] at hstep
    rw [reSearchFrom, hstep]
  | cons c rest =>
    rw [hsl] at hstep
    rw [reSearchFrom, hstep]
lemma takeWhile_all {p : Char → Bool} :
    ∀ (l : List Char), (∀ c ∈ l, p c = true) → l.takeWhile p = l
  | [], _ => rfl
  | c :: r, h => by
    rw [List.takeWhile_cons_of_pos (h c (by simp)),
      takeWhile_all r (fun x hx => h x (by simp [hx]))]

/-- `parseInt` on a pure digit string reads all the digits. -/
lemma jsParseInt_digits (l : List Char) (h1 : l ≠ [])
    (hD : ∀ c ∈ l, c ∈ digitChars) :
    jsParseInt (String.mk l) = some (natOfDigits l) := by
  have hdrop : l.dropWhile (fun c => jsSpaceChars.contains c) = l := by
    cases l with
    | nil => rfl
    | cons c r =>
      rw [List.dropWhile_cons_of_neg]
      simp [digit_not_space (hD c (by simp))]
  have htake : l.takeWhile (fun c => digitChars.contains c) = l :=
    takeWhile_all l (fun c hc => by simp [hD c hc])
  simp only [jsParseInt, string_data_mk, hdrop, htake]
  cases l with
  | nil => exact absurd rfl h1
  | cons c r => rfl

/-- Full decode law for `parseSymbolCode` on a well-formed token. -/
lemma parseSymbolCode_token
    (sgn tk st : List Char) (y1 y2 m1 m2 d1 d2 cp : Char)
    (hsgn : sgn = [] ∨ sgn = ['+'] ∨ sgn = ['-'])
    (htk1 : tk ≠ []) (htk6 : tk.length ≤ 6)
    (htkU : ∀ c ∈ tk, c ∈ upperChars)
    (hy1 : y1 ∈ digitChars) (hy2 : y2 ∈ digitChars)
    (hm1 : m1 ∈ digitChars) (hm2 : m2 ∈ digitChars)
    (hd1 : d1 ∈ digitChars) (hd2 : d2 ∈ digitChars)
    (hcp : cp ∈ (['C', 'P'] : List Char))
    (hst2 : 2 ≤ st.length) (hst4 : st.length ≤ 4)
    (hstD : ∀ c ∈ st, c ∈ digitChars) :
    parseSymbolCode (String.mk (sgn ++ (tk ++ (y1 :: y2 :: m1 :: m2 :: d1 :: d2 :: cp :: st)))) =
      some { ticker := String.mk tk,
             type := if cp = 'C' then LegType.call else LegType.put,
             expiry := toISO (2000 + natOfDigits [y1, y2]) (natOfDigits [m1, m2])
                         (natOfDigits [d1, d2]),
             strike := (natOfDigits st : ℚ) } := by
  obtain ⟨m0, hsearch⟩ := reSearch_symbolCode sgn tk st y1 y2 m1 m2 d1 d2 cp
    hsgn htk1 htk6 htkU hy1 hy2 hm1 hm2 hd1 hd2 hcp hst2 hst4 hstD
  have hstne : st ≠ [] := by
    intro h
    rw [h] at hst2
    simp at hst2
  have hy : jsParseInt (String.mk [y1, y2]) = some (natOfDigits [y1, y2]) :=
    jsParseInt_digits _ (by simp)
      (by intro c hc; simp at hc; rcases hc with rfl | rfl <;> assumption)
  have hm : jsParseInt (String.mk [m1, m2]) = some (natOfDigits [m1, m2]) :=
    jsParseInt_digits _ (by simp)
      (by intro c hc; simp at hc; rcases hc with rfl | rfl <;> assumption)
  have hd : jsParseInt (String.mk [d1, d2]) = some (natOfDigits [d1, d2]) :=
    jsParseInt_digits _ (by simp)
      (by intro c hc; simp at hc; rcases hc with rfl | rfl <;> assumption)
  have hs : jsParseInt (String.mk st) = some (natOfDigits st) :=
    jsParseInt_digits st hstne hstD
  simp only [List.mem_cons, List.not_mem_nil, or_false] at hcp
  rcases hcp with rfl | rfl
  · simp [parseSymbolCode, hsearch, List.lookup, hy, hm, hd, hs]
  · simp [parseSymbolCode, hsearch, List.lookup, hy, hm, hd, hs]

/-- A decoded symbol code populates every record of `parseTradeText`. -/
lemma parseTradeText_populates (raw : String) (si : SymbolInfo)
    (hsi : parseSymbolCode (preprocess raw) = some si) :
    ∀ pt ∈ parseTradeText raw,
      pt.ticker = some si.ticker ∧ pt.type = some si.type ∧
      pt.expiry = some si.expiry ∧ pt.strike = some si.strike := by
  intro pt hpt
  simp only [parseTradeText, List.map, List.mem_singleton] at hpt
  subst hpt
  refine ⟨?_, ?_, ?_, ?_⟩ <;> simp [hsi]
/-- C6 (amended): a well-formed option symbol token — optional sign, one to
six capital ticker letters, two year digits, two month digits, two day
digits, a C or P, and a two-to-FOUR digit strike — decodes to its ticker,
its type (C to call, P to put), the ISO expiry with year 2000+yy, and the
literal integer strike; a decoded code populates the type, ticker, expiry
and strike of every record `parseTradeText` returns; and the Scenario A
token `-IREN260116P45` embedded in surrounding text yields ticker IREN,
put, 2026-01-16, strike 45.  (The claimed 2-6 digit strike is wrong: the
code's pattern stops after four strike digits.) -/
theorem parseSymbolCode_decodes_and_populates
    (sgn tk st : List Char) (y1 y2 m1 m2 d1 d2 cp : Char)
    (hsgn : sgn = [] ∨ sgn = ['+'] ∨ sgn = ['-'])
    (htk1 : tk ≠ []) (htk6 : tk.length ≤ 6)
    (htkU : ∀ c ∈ tk, c ∈ upperChars)
    (hy1 : y1 ∈ digitChars) (hy2 : y2 ∈ digitChars)
    (hm1 : m1 ∈ digitChars) (hm2 : m2 ∈ digitChars)
    (hd1 : d1 ∈ digitChars) (hd2 : d2 ∈ digitChars)
    (hcp : cp ∈ (['C', 'P'] : List Char))
    (hst2 : 2 ≤ st.length) (hst4 : st.length ≤ 4)
    (hstD : ∀ c ∈ st, c ∈ digitChars) :
    (parseSymbolCode
        (String.mk (sgn ++ (tk ++ (y1 :: y2 :: m1 :: m2 :: d1 :: d2 :: cp :: st)))) =
      some { ticker := String.mk tk,
             type := if cp = 'C' then LegType.call else LegType.put,
             expiry := toISO (2000 + natOfDigits [y1, y2]) (natOfDigits [m1, m2])
                         (natOfDigits [d1, d2]),
             strike := (natOfDigits st : ℚ) })
    ∧ (∀ raw si, parseSymbolCode (preprocess raw) = some si →
        ∀ pt ∈ parseTradeText raw,
          pt.ticker = some si.ticker ∧ pt.type = some si.type ∧
          pt.expiry = some si.expiry ∧ pt.strike = some si.strike)
    ∧ ((parseTradeText "Sold to open -IREN260116P45 at 1.20").map ParsedTrade.ticker =
          [some "IREN"]
       ∧ (parseTradeText "Sold to open -IREN260116P45 at 1.20").map ParsedTrade.type =
          [some LegType.put]
       ∧ (parseTradeText "Sold to open -IREN260116P45 at 1.20").map ParsedTrade.expiry =
          [some "2026-01-16"]
       ∧ (parseTradeText "Sold to open -IREN260116P45 at 1.20").map ParsedTrade.strike =
          [some (45 : ℚ)]) :=
  ⟨parseSymbolCode_token sgn tk st y1 y2 m1 m2 d1 d2 cp hsgn htk1 htk6 htkU
      hy1 hy2 hm1 hm2 hd1 hd2 hcp hst2 hst4 hstD,
   fun raw si h => parseTradeText_populates raw si h,
   by decide⟩

/-- C6 counterexample: on a five-digit strike the code's pattern captures
only the first four digits, so the decoded strike is 1234, not the claimed
literal 12345 — the claim's 2-6 digit strike shape does not hold. -/
theorem parseSymbolCode_strike_counterexample :
    (parseSymbolCode "IREN260116P12345").map SymbolInfo.strike = some (1234 : ℚ) ∧
    (parseSymbolCode "IREN260116P12345").map SymbolInfo.strike ≠ some (12345 : ℚ) :=
  ⟨by decide, by decide⟩

/-- C6 witness: the decode law applied at the Scenario A token
`-IREN260116P45`. -/
theorem parseSymbolCode_decodes_witness :
    parseSymbolCode
        (String.mk (['-'] ++ (['I', 'R', 'E', 'N'] ++
          ('2' :: '6' :: '0' :: '1' :: '1' :: '6' :: 'P' :: ['4', '5'])))) =
      some { ticker := String.mk ['I', 'R', 'E', 'N'],
             type := if 'P' = 'C' then LegType.call else LegType.put,
             expiry := toISO (2000 + natOfDigits ['2', '6']) (natOfDigits ['0', '1'])
                         (natOfDigits ['1', '6']),
             strike := (natOfDigits ['4', '5'] : ℚ) } :=
  (parseSymbolCode_decodes_and_populates ['-'] ['I', 'R', 'E', 'N'] ['4', '5']
    '2' '6' '0' '1' '1' '6' 'P'
    (by decide) (by decide) (by decide) (by decide) (by decide) (by decide) (by decide)
    (by decide) (by decide) (by decide) (by decide) (by decide) (by decide) (by decide)).1
